import Mathlib

/-!
Verification development for the Polymarket stop-loss bot
(`polymarket_stop_loss_hybrid_specificPosition.py`).

Prices and sizes are embedded as rational numbers (`ℚ`); Python decimal
literals such as `0.1`, `0.95`, `0.50` become `1/10`, `19/20`, `1/2`.
The venue (order book query and order submissions) is an explicit
parameter; the chunked sell loop, which Python runs as an unguarded
`while`, is embedded with explicit fuel: `Option.none` means the Python
loop would still be running after that many iterations.
-/

/-- `StopLossConfig` dataclass (source lines 63-78).  `selected_positions`
is a set of token ids in Python; it is embedded as a list of strings with
membership tests.  Field defaults mirror the Python defaults. -/
structure StopLossConfig where
  stop_loss_percentage : ℚ := 20
  stop_loss_price : Option ℚ := Option.none
  check_interval : ℕ := 60
  min_position_value : ℚ := 1/10
  dry_run : Bool := true
  max_slippage : ℚ := 1/20
  selected_positions : List String := []
  selection_mode : String := "none"
  deriving DecidableEq

/-- `Position` dataclass (source lines 84-96): a snapshot of one position.
`pnl` and `pnl_percentage` are stored fields, derived at parse time. -/
structure Position where
  token_id : String
  market_name : String
  outcome : String
  size : ℚ
  current_value : ℚ
  current_price : ℚ
  initial_value : ℚ
  pnl : ℚ
  pnl_percentage : ℚ
  deriving DecidableEq

/-- P&L derivation in `Position.from_data_api` (source lines 112-113):
`pnl = current_value - initial_value` and
`pnl_percentage = pnl / initial_value * 100 if initial_value > 0 else 0`. -/
def mk_position (token_id market_name outcome : String)
    (size current_value current_price initial_value : ℚ) : Position :=
  let pnl := current_value - initial_value
  { token_id := token_id
    market_name := market_name
    outcome := outcome
    size := size
    current_value := current_value
    current_price := current_price
    initial_value := initial_value
    pnl := pnl
    pnl_percentage := if initial_value > 0 then pnl / initial_value * 100 else 0 }

/-- `PolymarketStopLossBot.filter_monitored_positions` (source lines
617-638): mode `"all"` returns the list unchanged; mode `"selected"`
returns `[]` when the selected set is empty and otherwise keeps the
positions whose token id is selected; mode `"none"` returns `[]`; any
other mode falls through to `[]`. -/
def filter_monitored_positions (config : StopLossConfig)
    (positions : List Position) : List Position :=
  if config.selection_mode = "all" then
    positions
  else if config.selection_mode = "selected" then
    if config.selected_positions = [] then
      []
    else
      positions.filter (fun pos => pos.token_id ∈ config.selected_positions)
  else if config.selection_mode = "none" then
    []
  else
    []

/-- Percentage trigger test (source line 647):
`position.pnl_percentage <= -config.stop_loss_percentage`. -/
def percentage_triggered (config : StopLossConfig) (position : Position) : Bool :=
  position.pnl_percentage ≤ -config.stop_loss_percentage

/-- Price trigger test (source lines 649-650): `config.stop_loss_price is
not None and position.current_price <= config.stop_loss_price`. -/
def price_triggered (config : StopLossConfig) (position : Position) : Bool :=
  match config.stop_loss_price with
  | Option.some limit => position.current_price ≤ limit
  | Option.none => false

/-- Combined trigger decision (source line 652):
`percentage_triggered or price_triggered`. -/
def stop_loss_triggered (config : StopLossConfig) (position : Position) : Bool :=
  percentage_triggered config position || price_triggered config position

/-- One entry of the `trigger_reason` list built at source lines 654-658. -/
inductive TriggerReason where
  | lossPct (pnl_percentage : ℚ)
  | priceLE (current_price limit : ℚ)
  deriving DecidableEq

/-- The `trigger_reason` list (source lines 654-658): the percentage
reason is appended when `percentage_triggered`, the price reason when
`price_triggered`; both appear when both hold. -/
def trigger_reasons (config : StopLossConfig) (position : Position) :
    List TriggerReason :=
  (if percentage_triggered config position then
     [TriggerReason.lossPct position.pnl_percentage] else []) ++
  (if price_triggered config position then
     [TriggerReason.priceLE position.current_price
        (config.stop_loss_price.getD 0)] else [])

/-- `PolymarketStopLossBot.check_stop_loss_triggers` (source lines
640-665): filter to the monitored positions, then keep those whose stop
loss triggered. -/
def check_stop_loss_triggers (config : StopLossConfig)
    (positions : List Position) : List Position :=
  (filter_monitored_positions config positions).filter
    (fun position => stop_loss_triggered config position)

/-- Mode normalization at the top of `PolymarketStopLossBot.start_monitoring`
(source lines 866-868): `"selected"` mode with an empty selected set is
rewritten to `"all"` (with a warning) before the monitoring loop starts. -/
def start_monitoring_mode (config : StopLossConfig) : StopLossConfig :=
  if config.selection_mode = "selected" ∧ config.selected_positions = [] then
    { config with selection_mode := "all" }
  else
    config

/-- Configuration update in
`PolymarketStopLossBot.select_positions_for_monitoring` (source lines
834-835): the new selection is stored and the mode becomes `"selected"`
when it is nonempty, `"all"` otherwise. -/
def select_positions_update (config : StopLossConfig)
    (new_selections : List String) : StopLossConfig :=
  { config with
    selected_positions := new_selections
    selection_mode := if new_selections ≠ [] then "selected" else "all" }

/-- Outcome of one `post_order` call in `execute_market_sell`:
`accepted` is a response with `success` true (source line 306),
`rejected` a response with `success` false (source line 326),
`exn` an exception raised by the call (source line 335). -/
inductive SubmitOutcome where
  | accepted
  | rejected
  | exn
  deriving DecidableEq

/-- Result of the order book query at source lines 261-263: `err` models
the query raising (the `except` branch at line 275), `ok bids` a response
whose bid price list is `bids` (possibly empty). -/
inductive BookResult where
  | err
  | ok (bids : List ℚ)
  deriving DecidableEq

/-- The trading venue as the executor observes it: the order book answer
and, for each successive order submission (counted from 0), the outcome
of that `post_order` call. -/
structure Venue where
  book : BookResult
  outcomes : ℕ → SubmitOutcome

/-- Price discovery in `execute_market_sell` (source lines 260-279): best
bid when bids exist, `current_price * 0.95` when the book has no bids,
`current_price * 0.90` when the book query raises; every branch applies
the `max(0.001, _)` floor. -/
def discover_price (v : Venue) (position : Position) : ℚ :=
  match v.book with
  | BookResult.err => max (1/1000) (position.current_price * (9/10))
  | BookResult.ok [] => max (1/1000) (position.current_price * (19/20))
  | BookResult.ok (best_bid :: _) => max (1/1000) best_bid

/-- `chunk_size = min(position.size, 50.0)` (source line 282). -/
def chunk_size (position : Position) : ℚ := min position.size 50

/-- Mutable state of the chunked sell in `execute_market_sell` (source
lines 282-285): working price, remaining size, total size ordered, the
accepted orders (as `(size, price)` pairs, mirroring the order args of
each appended result), and the number of `post_order` calls made so far
(the index into `Venue.outcomes`). -/
structure ExecState where
  sell_price : ℚ
  remaining_size : ℚ
  total_filled : ℚ
  orders_placed : List (ℚ × ℚ)
  submissions : ℕ
  deriving DecidableEq

/-- Initial executor state (source lines 282-285): price from discovery,
remaining = position size, nothing filled, no orders. -/
def init_state (v : Venue) (position : Position) : ExecState :=
  { sell_price := discover_price v position
    remaining_size := position.size
    total_filled := 0
    orders_placed := []
    submissions := 0 }

/-- One iteration of the `while remaining_size > 0.1` loop body (source
lines 287-340): submit `min(remaining, chunk_size)` at the working price;
on acceptance record the order and move the chunk from remaining to
filled; on rejection multiply the price by 0.95 under the 0.001 floor and
retry; on an exception multiply it by 0.90 under the floor and retry. -/
def loop_step (v : Venue) (position : Position) (s : ExecState) : ExecState :=
  let current_chunk := min s.remaining_size (chunk_size position)
  match v.outcomes s.submissions with
  | SubmitOutcome.accepted =>
    { s with
      remaining_size := s.remaining_size - current_chunk
      total_filled := s.total_filled + current_chunk
      orders_placed := s.orders_placed ++ [(current_chunk, s.sell_price)]
      submissions := s.submissions + 1 }
  | SubmitOutcome.rejected =>
    { s with
      sell_price := max (1/1000) (s.sell_price * (19/20))
      submissions := s.submissions + 1 }
  | SubmitOutcome.exn =>
    { s with
      sell_price := max (1/1000) (s.sell_price * (9/10))
      submissions := s.submissions + 1 }

/-- The `while remaining_size > 0.1` loop (source line 287), with explicit
fuel: `some s` is normal loop exit in state `s` (so `s.remaining_size ≤
0.1`), `Option.none` means the Python loop is still running after `fuel`
iterations.  The source loop has no other exit: no break and no retry
cap. -/
def run_loop (v : Venue) (position : Position) :
    ℕ → ExecState → Option ExecState
  | 0, s =>
    if s.remaining_size > 1/10 then Option.none else Option.some s
  | fuel + 1, s =>
    if s.remaining_size > 1/10 then
      run_loop v position fuel (loop_step v position s)
    else
      Option.some s

/-- The final low-price order (source lines 342-366): when more than the
0.1 dust threshold remains, submit one order for the entire remaining
size at `max(0.001, current_price * 0.50)`; on acceptance record it and
add the remaining size to the total filled (the source does not decrement
`remaining_size` here); on rejection or exception do nothing further.
Exactly one submission is made and it is never retried. -/
def final_sweep (v : Venue) (position : Position) (s : ExecState) : ExecState :=
  if s.remaining_size > 1/10 then
    let final_price := max (1/1000) (position.current_price * (1/2))
    match v.outcomes s.submissions with
    | SubmitOutcome.accepted =>
      { s with
        total_filled := s.total_filled + s.remaining_size
        orders_placed := s.orders_placed ++ [(s.remaining_size, final_price)]
        submissions := s.submissions + 1 }
    | _ => { s with submissions := s.submissions + 1 }
  else
    s

/-- Return value of `execute_market_sell` (source lines 369-388): the
success dict carries `orders_placed`, `total_size_ordered`,
`remaining_size` and the order details; the failure dict carries
`success=False` and the attempted size. -/
inductive ExecResult where
  | ok (orders_placed : ℕ) (total_size_ordered remaining_size : ℚ)
      (order_details : List (ℚ × ℚ))
  | failure (attempted_size : ℚ)
  deriving DecidableEq

/-- The `success` field of the returned dict: `True` on the success
branch (line 377), `False` on the failure branch (line 385). -/
def ExecResult.success : ExecResult → Bool
  | ExecResult.ok _ _ _ _ => true
  | ExecResult.failure _ => false

/-- Result construction at source lines 369-388: `if orders_placed:`
return success with `remaining_size = position.size - total_filled`, else
return failure with `attempted_size = position.size`. -/
def mk_result (position : Position) (s : ExecState) : ExecResult :=
  if s.orders_placed = [] then
    ExecResult.failure position.size
  else
    ExecResult.ok s.orders_placed.length s.total_filled
      (position.size - s.total_filled) s.orders_placed

/-- Executor state after the chunk loop and the final sweep;
`Option.none` when the chunk loop never exits within `fuel` iterations. -/
def exec_final_state (v : Venue) (position : Position) (fuel : ℕ) :
    Option ExecState :=
  (run_loop v position fuel (init_state v position)).map (final_sweep v position)

/-- `PolymarketTradingClient.execute_market_sell` (source lines 251-388):
price discovery, chunked sell loop, final sweep, result construction.
`Option.none` means the Python call would still be inside the chunk loop
after `fuel` iterations. -/
def execute_market_sell (v : Venue) (position : Position) (fuel : ℕ) :
    Option ExecResult :=
  (exec_final_state v position fuel).map (mk_result position)

/-- The executor state trajectory under repeated loop-body iterations:
`loop_states v position k` is the state after `k` iterations of the chunk
loop body starting from the initial state. -/
def loop_states (v : Venue) (position : Position) : ℕ → ExecState
  | 0 => init_state v position
  | k + 1 => loop_step v position (loop_states v position k)

/-- One record of `self.stop_loss_log` (source lines 684-695): the
position summary together with the order result. -/
structure LogRecord where
  position : Position
  order_result : ExecResult
  deriving DecidableEq

/-- Observable outcome of one `execute_stop_loss` call: the returned
boolean, the number of orders submitted to the venue during the call, and
the execution log after the call. -/
structure StopLossOutcome where
  success : Bool
  orders_submitted : ℕ
  log : List LogRecord
  deriving DecidableEq

/-- `PolymarketStopLossBot.execute_stop_loss` (source lines 667-701): in
dry-run mode, log a message and return `True` at once — no order is
built or submitted and nothing is appended to `stop_loss_log`; otherwise,
with no trading client an exception is raised and caught (`False`, log
unchanged); with a trading client, run `execute_market_sell`, append its
result to the log and return `True`.  `Option.none` again means the
chunk loop inside the sell did not exit within `fuel` iterations. -/
def execute_stop_loss (config : StopLossConfig) (trading_client : Option Venue)
    (fuel : ℕ) (position : Position) (log : List LogRecord) :
    Option StopLossOutcome :=
  if config.dry_run then
    Option.some { success := true, orders_submitted := 0, log := log }
  else
    match trading_client with
    | Option.none => Option.some { success := false, orders_submitted := 0, log := log }
    | Option.some v =>
      match exec_final_state v position fuel with
      | Option.none => Option.none
      | Option.some s =>
        Option.some
          { success := true
            orders_submitted := s.submissions
            log := log ++ [{ position := position, order_result := mk_result position s }] }

/-- A sample monitored position used in concrete instantiations. -/
def sample_position : Position :=
  { token_id := "tok1", market_name := "Sample Market", outcome := "Yes"
    size := 100, current_value := 40, current_price := 2/5
    initial_value := 50, pnl := -10, pnl_percentage := -20 }

/-- Configuration in mode `"selected"` with an empty selected set. -/
def cfg_selected_empty : StopLossConfig :=
  { selection_mode := "selected", selected_positions := [] }

/-- Boundary scenario position: P&L% exactly -20. -/
def pos_pnl_minus20 : Position :=
  { sample_position with pnl_percentage := -20 }

/-- Boundary scenario position: P&L% = -19.9. -/
def pos_pnl_minus199 : Position :=
  { sample_position with pnl := -199/20, pnl_percentage := -199/10 }

/-- Configuration with both a percentage threshold and a price floor set. -/
def cfg_both : StopLossConfig :=
  { stop_loss_percentage := 20, stop_loss_price := Option.some (3/20) }

/-- Position that is simultaneously percentage- and price-triggered under
`cfg_both`. -/
def pos_both : Position :=
  { sample_position with pnl_percentage := -25, current_price := 1/10 }

/-- Venue whose order book has a single bid below the price floor. -/
def low_bid_venue : Venue :=
  { book := BookResult.ok [1/2000], outcomes := fun _ => SubmitOutcome.accepted }

/-- Venue with an empty order book that rejects every order. -/
def reject_venue : Venue :=
  { book := BookResult.ok [], outcomes := fun _ => SubmitOutcome.rejected }

/-- Venue with best bid 0.38 that accepts every order (scenario A). -/
def accept_venue : Venue :=
  { book := BookResult.ok [19/50], outcomes := fun _ => SubmitOutcome.accepted }

/-- The executor state scenario A ends in: both 50-token chunks ordered at
0.38, nothing remaining. -/
def scenario_a_final : ExecState :=
  { sell_price := 19/50, remaining_size := 0, total_filled := 100
    orders_placed := [(50, 19/50), (50, 19/50)], submissions := 2 }

/-- A position whose size is already below the 0.1 dust threshold. -/
def dust_position : Position :=
  { sample_position with size := 1/20 }

/-- An executor state with 30 tokens still unordered, as handed to the
final sweep. -/
def sweep_pending_state : ExecState :=
  { sell_price := 19/50, remaining_size := 30, total_filled := 0
    orders_placed := [], submissions := 0 }

/-- C8: with selection mode `"none"` the filter returns the empty list for
every input position list, and consequently `check_stop_loss_triggers`
evaluates no position: it returns the empty list as well. -/
theorem none_mode_monitors_nothing (config : StopLossConfig)
    (positions : List Position) (h : config.selection_mode = "none") :
    filter_monitored_positions config positions = [] ∧
    check_stop_loss_triggers config positions = [] := by
  have hfilter : filter_monitored_positions config positions = [] := by
    unfold filter_monitored_positions
    rw [h]
    simp
  refine ⟨hfilter, ?_⟩
  unfold check_stop_loss_triggers
  rw [hfilter]
  rfl

/-- Witness for `none_mode_monitors_nothing` at the default configuration
(whose mode is `"none"`) and a nonempty position list. -/
theorem none_mode_monitors_nothing_witness :
    filter_monitored_positions {} [sample_position] = [] ∧
    check_stop_loss_triggers {} [sample_position] = [] :=
  none_mode_monitors_nothing {} [sample_position] rfl

/-- C5 counterexample: in mode `"selected"` with an empty selected set,
`start_monitoring` rewrites the mode to `"all"` before the monitoring
loop, after which the filter monitors every position — the
implementation does fall back to monitoring all positions in that
configuration. -/
theorem selected_empty_falls_back_to_all :
    (start_monitoring_mode cfg_selected_empty).selection_mode = "all" ∧
    filter_monitored_positions (start_monitoring_mode cfg_selected_empty)
      [sample_position] = [sample_position] := by
  constructor <;> rfl

/-- C5 (amended): the filter itself treats `"selected"` with an empty set
exactly like `"none"` (both return the empty list), but
`start_monitoring` normalizes that configuration to mode `"all"` (with a
warning) before its loop, and the interactive selection update maps an
empty selection to mode `"all"` as well. -/
theorem selected_empty_filter_like_none (config : StopLossConfig)
    (positions : List Position) (hm : config.selection_mode = "selected")
    (hs : config.selected_positions = []) :
    filter_monitored_positions config positions = [] ∧
    filter_monitored_positions { config with selection_mode := "none" } positions = [] ∧
    (start_monitoring_mode config).selection_mode = "all" ∧
    (select_positions_update config []).selection_mode = "all" := by
  refine ⟨?_, ?_, ?_, ?_⟩
  · unfold filter_monitored_positions
    rw [hm, hs]
    simp
  · unfold filter_monitored_positions
    simp
  · unfold start_monitoring_mode
    rw [if_pos ⟨hm, hs⟩]
  · unfold select_positions_update
    simp

/-- Witness for `selected_empty_filter_like_none` at a concrete
configuration and position list. -/
theorem selected_empty_filter_like_none_witness :
    filter_monitored_positions cfg_selected_empty [sample_position] = [] ∧
    filter_monitored_positions { cfg_selected_empty with selection_mode := "none" }
      [sample_position] = [] ∧
    (start_monitoring_mode cfg_selected_empty).selection_mode = "all" ∧
    (select_positions_update cfg_selected_empty []).selection_mode = "all" :=
  selected_empty_filter_like_none cfg_selected_empty [sample_position] rfl rfl

/-- C2: the trigger decision is true exactly when (P&L% ≤ -stop-loss
percentage) or (a stop-loss price is set and the current price is at or
below it); when both conditions hold the reason list reports both, with
the percentage reason first; the percentage boundary is inclusive: with
the default threshold of 20, P&L% = -20.0 triggers and -19.9 does not. -/
theorem trigger_rule (config : StopLossConfig) (position : Position) :
    (stop_loss_triggered config position = true ↔
       (position.pnl_percentage ≤ -config.stop_loss_percentage ∨
        ∃ limit, config.stop_loss_price = Option.some limit ∧
          position.current_price ≤ limit)) ∧
    (percentage_triggered config position = true →
     price_triggered config position = true →
       trigger_reasons config position =
         [TriggerReason.lossPct position.pnl_percentage,
          TriggerReason.priceLE position.current_price
            (config.stop_loss_price.getD 0)]) ∧
    stop_loss_triggered cfg_both pos_pnl_minus20 = true ∧
    stop_loss_triggered cfg_both pos_pnl_minus199 = false := by
  refine ⟨?_, ?_, ?_, ?_⟩
  · unfold stop_loss_triggered percentage_triggered price_triggered
    cases hsp : config.stop_loss_price with
    | none =>
      simp [hsp]
    | some limit =>
      simp [hsp]
  · intro hpct hprice
    unfold trigger_reasons
    rw [hpct, hprice]
    rfl
  · norm_num [stop_loss_triggered, percentage_triggered, price_triggered,
      cfg_both, pos_pnl_minus20, sample_position]
  · norm_num [stop_loss_triggered, percentage_triggered, price_triggered,
      cfg_both, pos_pnl_minus199, sample_position]

/-- Witness for `trigger_rule`: at `cfg_both` and `pos_both` both
conditions hold and both reasons are reported, percentage first. -/
theorem trigger_rule_witness :
    trigger_reasons cfg_both pos_both =
      [TriggerReason.lossPct (-25), TriggerReason.priceLE (1/10) (3/20)] :=
  (trigger_rule cfg_both pos_both).2.1
    (by norm_num [percentage_triggered, cfg_both, pos_both, sample_position])
    (by norm_num [price_triggered, cfg_both, pos_both, sample_position])

/-- C10: the configuration's `dry_run` flag defaults to `True`, and when
it is set `execute_stop_loss` returns success immediately: no order is
submitted to the venue and the execution log is unchanged, for every
position, trading client and fuel. -/
theorem dry_run_no_orders (config : StopLossConfig) (trading_client : Option Venue)
    (fuel : ℕ) (position : Position) (log : List LogRecord)
    (h : config.dry_run = true) :
    ({} : StopLossConfig).dry_run = true ∧
    execute_stop_loss config trading_client fuel position log =
      Option.some { success := true, orders_submitted := 0, log := log } := by
  refine ⟨rfl, ?_⟩
  unfold execute_stop_loss
  rw [h]
  rfl

/-- Witness for `dry_run_no_orders` at the default configuration. -/
theorem dry_run_no_orders_witness :
    ({} : StopLossConfig).dry_run = true ∧
    execute_stop_loss {} (Option.some accept_venue) 0 sample_position [] =
      Option.some { success := true, orders_submitted := 0, log := [] } :=
  dry_run_no_orders {} (Option.some accept_venue) 0 sample_position [] rfl

/-- Unfolding: the chunk loop exits at once when at most the dust
threshold remains. -/
theorem run_loop_exit (v : Venue) (position : Position) (fuel : ℕ) (s : ExecState)
    (h : ¬ s.remaining_size > 1/10) :
    run_loop v position fuel s = Option.some s := by
  cases fuel with
  | zero => rw [run_loop, if_neg h]
  | succ n => rw [run_loop, if_neg h]

/-- Unfolding: above the dust threshold the loop runs its body once and
continues with one unit of fuel less. -/
theorem run_loop_go (v : Venue) (position : Position) (fuel : ℕ) (s : ExecState)
    (h : s.remaining_size > 1/10) :
    run_loop v position (fuel + 1) s = run_loop v position fuel (loop_step v position s) := by
  rw [run_loop, if_pos h]

/-- Unfolding: above the dust threshold, zero fuel means the loop is still
running. -/
theorem run_loop_zero (v : Venue) (position : Position) (s : ExecState)
    (h : s.remaining_size > 1/10) :
    run_loop v position 0 s = Option.none := by
  rw [run_loop, if_pos h]

/-- Any property preserved by the loop body holds at normal loop exit. -/
theorem run_loop_preserves (v : Venue) (position : Position) (P : ExecState → Prop)
    (hstep : ∀ s, P s → P (loop_step v position s)) :
    ∀ fuel s s₂, run_loop v position fuel s = Option.some s₂ → P s → P s₂ := by
  intro fuel
  induction fuel with
  | zero =>
    intro s s₂ hrun hs
    by_cases h : s.remaining_size > 1/10
    · rw [run_loop_zero v position s h] at hrun
      exact Option.noConfusion hrun
    · rw [run_loop_exit v position 0 s h] at hrun
      obtain rfl := Option.some.inj hrun
      exact hs
  | succ n ih =>
    intro s s₂ hrun hs
    by_cases h : s.remaining_size > 1/10
    · rw [run_loop_go v position n s h] at hrun
      exact ih _ _ hrun (hstep s hs)
    · rw [run_loop_exit v position (n + 1) s h] at hrun
      obtain rfl := Option.some.inj hrun
      exact hs

/-- The loop body conserves `total_filled + remaining_size`. -/
theorem loop_step_conserves (v : Venue) (position : Position) (s : ExecState) :
    (loop_step v position s).total_filled + (loop_step v position s).remaining_size =
      s.total_filled + s.remaining_size := by
  unfold loop_step
  cases v.outcomes s.submissions <;> simp

/-- The loop body keeps `total_filled` equal to the sum of the sizes of
the accepted orders. -/
theorem loop_step_filled_sum (v : Venue) (position : Position) (s : ExecState)
    (hs : s.total_filled = (s.orders_placed.map Prod.fst).sum) :
    (loop_step v position s).total_filled =
      ((loop_step v position s).orders_placed.map Prod.fst).sum := by
  unfold loop_step
  cases v.outcomes s.submissions <;> simp [hs]

/-- The final sweep keeps `total_filled` equal to the sum of the sizes of
the accepted orders. -/
theorem final_sweep_filled_sum (v : Venue) (position : Position) (s : ExecState)
    (hs : s.total_filled = (s.orders_placed.map Prod.fst).sum) :
    (final_sweep v position s).total_filled =
      ((final_sweep v position s).orders_placed.map Prod.fst).sum := by
  unfold final_sweep
  by_cases h : s.remaining_size > 1/10
  · rw [if_pos h]
    cases v.outcomes s.submissions <;> simp [hs]
  · rw [if_neg h]
    exact hs

/-- C3: at every step of the chunk loop the total size ordered plus the
remaining unordered size equals the original position size, and whenever
the executor returns a success result its remaining size equals the
original size minus the total size ordered, which is itself the sum of
the sizes of the accepted orders. -/
theorem size_conservation (v : Venue) (position : Position) (k fuel : ℕ) :
    ((loop_states v position k).total_filled +
       (loop_states v position k).remaining_size = position.size) ∧
    (∀ n tot rem dets,
       execute_market_sell v position fuel =
           Option.some (ExecResult.ok n tot rem dets) →
         rem = position.size - tot ∧ tot = (dets.map Prod.fst).sum) := by
  constructor
  · induction k with
    | zero => simp [loop_states, init_state]
    | succ m ih => rw [loop_states, loop_step_conserves, ih]
  · intro n tot rem dets hr
    unfold execute_market_sell exec_final_state at hr
    obtain ⟨s₁, hs₁, hmap⟩ := Option.map_eq_some'.1 hr
    obtain ⟨s₀, hrun, hsweep⟩ := Option.map_eq_some'.1 hs₁
    have hsum : s₀.total_filled = (s₀.orders_placed.map Prod.fst).sum := by
      refine run_loop_preserves v position
        (fun s => s.total_filled = (s.orders_placed.map Prod.fst).sum)
        (fun s hs => loop_step_filled_sum v position s hs) fuel _ _ hrun ?_
      simp [init_state]
    have hsum' : (final_sweep v position s₀).total_filled =
        ((final_sweep v position s₀).orders_placed.map Prod.fst).sum :=
      final_sweep_filled_sum v position s₀ hsum
    rw [hsweep] at hsum'
    unfold mk_result at hmap
    by_cases hne : s₁.orders_placed = []
    · rw [if_pos hne] at hmap
      exact ExecResult.noConfusion hmap
    · rw [if_neg hne] at hmap
      injection hmap with h₁ h₂ h₃ h₄
      subst h₂
      subst h₃
      subst h₄
      exact ⟨rfl, hsum'⟩

/-- Witness for `size_conservation` at scenario A: the invariant after one
loop iteration, and the returned result fields. -/
theorem size_conservation_witness :
    ((loop_states accept_venue sample_position 1).total_filled +
       (loop_states accept_venue sample_position 1).remaining_size =
         sample_position.size) ∧
    ((0 : ℚ) = sample_position.size - 100 ∧
     (100 : ℚ) = (([(50, 19/50), (50, 19/50)] : List (ℚ × ℚ)).map Prod.fst).sum) :=
  ⟨(size_conservation accept_venue sample_position 1 2).1,
   (size_conservation accept_venue sample_position 1 2).2 2 100 0
     [(50, 19/50), (50, 19/50)]
     (by
        norm_num [execute_market_sell, exec_final_state, run_loop, loop_step,
          init_state, discover_price, chunk_size, final_sweep, mk_result,
          accept_venue, sample_position]
        intro h
        exact absurd h (List.cons_ne_nil _ _))⟩

/-- A rejected submission leaves the remaining size unchanged. -/
theorem loop_step_rejected_remaining (v : Venue) (position : Position) (s : ExecState)
    (h : v.outcomes s.submissions = SubmitOutcome.rejected) :
    (loop_step v position s).remaining_size = s.remaining_size := by
  unfold loop_step
  rw [h]

/-- C1 (the claim's bound is absent from the code): against a venue that
rejects every order submission, the chunk loop of `execute_market_sell`
never terminates — there is no consecutive-rejection cap, the remaining
size never decreases, and the final sweep is never reached, for any
amount of fuel. -/
theorem all_rejected_loops_forever (v : Venue) (position : Position) (fuel : ℕ)
    (hrej : ∀ i, v.outcomes i = SubmitOutcome.rejected)
    (hsize : position.size > 1/10) :
    execute_market_sell v position fuel = Option.none := by
  have key : ∀ n s, s.remaining_size > 1/10 → run_loop v position n s = Option.none := by
    intro n
    induction n with
    | zero => intro s hs; exact run_loop_zero v position s hs
    | succ m ih =>
      intro s hs
      rw [run_loop_go v position m s hs]
      refine ih _ ?_
      rw [loop_step_rejected_remaining v position s (hrej s.submissions)]
      exact hs
  unfold execute_market_sell exec_final_state
  rw [key fuel (init_state v position) hsize]
  rfl

/-- Witness for `all_rejected_loops_forever`: a 100-token position against
the always-rejecting venue makes no progress in 5 iterations (nor any
other number). -/
theorem all_rejected_loops_forever_witness :
    execute_market_sell reject_venue sample_position 5 = Option.none :=
  all_rejected_loops_forever reject_venue sample_position 5 (fun _ => rfl)
    (by norm_num [sample_position])

/-- C6 counterexample: the claim says the working price is never computed
`≤ 0.001`, but the floor clamps at exactly 0.001: with a best bid of
0.0005 the discovered working price is exactly 0.001. -/
theorem price_floor_attained :
    discover_price low_bid_venue sample_position = 1/1000 ∧
    discover_price low_bid_venue sample_position ≤ 1/1000 := by
  norm_num [discover_price, low_bid_venue, sample_position]

/-- C6 (amended): the working price is never computed below the floor
0.001 — in particular never ≤ 0 — at price discovery, at every
reprice step of the chunk loop, and for every accepted order (the final
sweep included). -/
theorem working_price_floor (v : Venue) (position : Position) (k fuel : ℕ)
    (s : ExecState) (hs : exec_final_state v position fuel = Option.some s) :
    1/1000 ≤ (loop_states v position k).sell_price ∧
    0 < (loop_states v position k).sell_price ∧
    1/1000 ≤ s.sell_price ∧
    ∀ o ∈ s.orders_placed, 1/1000 ≤ o.2 := by
  have floor_pos : (0 : ℚ) < 1/1000 := by norm_num
  have hstep : ∀ s', (1/1000 ≤ s'.sell_price ∧ ∀ o ∈ s'.orders_placed, 1/1000 ≤ o.2) →
      1/1000 ≤ (loop_step v position s').sell_price ∧
      ∀ o ∈ (loop_step v position s').orders_placed, 1/1000 ≤ o.2 := by
    intro s' ⟨hp, ho⟩
    unfold loop_step
    cases v.outcomes s'.submissions with
    | accepted =>
      refine ⟨hp, ?_⟩
      intro o hmem
      simp only [List.mem_append, List.mem_singleton] at hmem
      rcases hmem with hmem | rfl
      · exact ho o hmem
      · exact hp
    | rejected => exact ⟨le_max_left _ _, ho⟩
    | exn => exact ⟨le_max_left _ _, ho⟩
  have hinit : 1/1000 ≤ (init_state v position).sell_price ∧
      ∀ o ∈ (init_state v position).orders_placed, 1/1000 ≤ o.2 := by
    constructor
    · unfold init_state discover_price
      rcases v.book with _ | ⟨_ | ⟨b, t⟩⟩ <;> exact le_max_left _ _
    · intro o hmem
      simp [init_state] at hmem
  have htraj : ∀ m, 1/1000 ≤ (loop_states v position m).sell_price ∧
      ∀ o ∈ (loop_states v position m).orders_placed, 1/1000 ≤ o.2 := by
    intro m
    induction m with
    | zero => exact hinit
    | succ j ih =>
      rw [loop_states]
      exact hstep (loop_states v position j) ih
  have hfs : ∀ s', (1/1000 ≤ s'.sell_price ∧ ∀ o ∈ s'.orders_placed, 1/1000 ≤ o.2) →
      1/1000 ≤ (final_sweep v position s').sell_price ∧
      ∀ o ∈ (final_sweep v position s').orders_placed, 1/1000 ≤ o.2 := by
    intro s' ⟨hp, ho⟩
    unfold final_sweep
    by_cases hg : s'.remaining_size > 1/10
    · rw [if_pos hg]
      cases v.outcomes s'.submissions with
      | accepted =>
        refine ⟨hp, ?_⟩
        intro o hmem
        simp only [List.mem_append, List.mem_singleton] at hmem
        rcases hmem with hmem | rfl
        · exact ho o hmem
        · exact le_max_left _ _
      | rejected => exact ⟨hp, ho⟩
      | exn => exact ⟨hp, ho⟩
    · rw [if_neg hg]
      exact ⟨hp, ho⟩
  have hexit : 1/1000 ≤ s.sell_price ∧ ∀ o ∈ s.orders_placed, 1/1000 ≤ o.2 := by
    unfold exec_final_state at hs
    obtain ⟨s₀, hrun, hsweep⟩ := Option.map_eq_some'.1 hs
    have h₀ := run_loop_preserves v position
      (fun s' => 1/1000 ≤ s'.sell_price ∧ ∀ o ∈ s'.orders_placed, 1/1000 ≤ o.2)
      hstep fuel _ _ hrun hinit
    rw [← hsweep]
    exact hfs s₀ h₀
  exact ⟨(htraj k).1, lt_of_lt_of_le floor_pos (htraj k).1, hexit.1, hexit.2⟩

/-- Witness for `working_price_floor` at scenario A after one loop
iteration and at the returned final state. -/
theorem working_price_floor_witness :
    1/1000 ≤ (loop_states accept_venue sample_position 1).sell_price ∧
    0 < (loop_states accept_venue sample_position 1).sell_price ∧
    1/1000 ≤ scenario_a_final.sell_price := by
  have hs : exec_final_state accept_venue sample_position 2 =
      Option.some scenario_a_final := by
    norm_num [exec_final_state, run_loop, loop_step, init_state, discover_price,
      chunk_size, final_sweep, accept_venue, sample_position, scenario_a_final]
  obtain ⟨h₁, h₂, h₃, _⟩ :=
    working_price_floor accept_venue sample_position 1 2 scenario_a_final hs
  exact ⟨h₁, h₂, h₃⟩

/-- C4: whenever the remaining size is above the 0.1 dust threshold after
the chunk loop, the final sweep submits exactly one order — for the
entire remaining size, priced at `max(0.001, currentPrice * 0.50)`, which
is `currentPrice * 0.50` itself whenever the current price is at least
0.002 — and that order is never retried: exactly one submission is made
whether it is accepted or not, and the attempt then concludes. -/
theorem final_sweep_terminal (v : Venue) (position : Position) (s : ExecState)
    (h : s.remaining_size > 1/10) :
    (final_sweep v position s).submissions = s.submissions + 1 ∧
    (v.outcomes s.submissions = SubmitOutcome.accepted →
       (final_sweep v position s).orders_placed =
         s.orders_placed ++
           [(s.remaining_size, max (1/1000) (position.current_price * (1/2)))]) ∧
    (v.outcomes s.submissions ≠ SubmitOutcome.accepted →
       (final_sweep v position s).orders_placed = s.orders_placed) ∧
    (1/500 ≤ position.current_price →
       max (1/1000) (position.current_price * (1/2)) =
         position.current_price * (1/2)) := by
  refine ⟨?_, ?_, ?_, ?_⟩
  · unfold final_sweep
    rw [if_pos h]
    cases v.outcomes s.submissions <;> rfl
  · intro hacc
    unfold final_sweep
    rw [if_pos h, hacc]
  · intro hnacc
    unfold final_sweep
    rw [if_pos h]
    cases hout : v.outcomes s.submissions with
    | accepted => exact absurd hout hnacc
    | rejected => rfl
    | exn => rfl
  · intro hcur
    refine max_eq_right ?_
    linarith

/-- Witness for `final_sweep_terminal`: 30 tokens pending against the
rejecting venue — one submission, no order recorded, and the sweep price
for the 0.40 position is 0.20. -/
theorem final_sweep_terminal_witness :
    (final_sweep reject_venue sample_position sweep_pending_state).submissions =
      sweep_pending_state.submissions + 1 ∧
    (final_sweep reject_venue sample_position sweep_pending_state).orders_placed =
      sweep_pending_state.orders_placed ∧
    max (1/1000) (sample_position.current_price * (1/2)) =
      sample_position.current_price * (1/2) := by
  obtain ⟨h₁, _, h₃, h₄⟩ :=
    final_sweep_terminal reject_venue sample_position sweep_pending_state
      (by norm_num [sweep_pending_state])
  refine ⟨h₁, h₃ ?_, h₄ ?_⟩
  · intro hcontra
    exact SubmitOutcome.noConfusion hcontra
  · norm_num [sample_position]

/-- The loop body preserves "an order has been recorded iff some past
submission was accepted". -/
theorem loop_step_accepted_iff (v : Venue) (position : Position) (s : ExecState)
    (hs : s.orders_placed ≠ [] ↔
            ∃ i, i < s.submissions ∧ v.outcomes i = SubmitOutcome.accepted) :
    (loop_step v position s).orders_placed ≠ [] ↔
      ∃ i, i < (loop_step v position s).submissions ∧
        v.outcomes i = SubmitOutcome.accepted := by
  unfold loop_step
  cases hout : v.outcomes s.submissions with
  | accepted =>
    simp only []
    constructor
    · intro _
      exact ⟨s.submissions, Nat.lt_succ_self _, hout⟩
    · intro _
      simp
  | rejected =>
    simp only []
    rw [hs]
    constructor
    · rintro ⟨i, hi, hacc⟩
      exact ⟨i, Nat.lt_succ_of_lt hi, hacc⟩
    · rintro ⟨i, hi, hacc⟩
      rcases Nat.lt_succ_iff_lt_or_eq.1 hi with hlt | rfl
      · exact ⟨i, hlt, hacc⟩
      · rw [hout] at hacc
        exact SubmitOutcome.noConfusion hacc
  | exn =>
    simp only []
    rw [hs]
    constructor
    · rintro ⟨i, hi, hacc⟩
      exact ⟨i, Nat.lt_succ_of_lt hi, hacc⟩
    · rintro ⟨i, hi, hacc⟩
      rcases Nat.lt_succ_iff_lt_or_eq.1 hi with hlt | rfl
      · exact ⟨i, hlt, hacc⟩
      · rw [hout] at hacc
        exact SubmitOutcome.noConfusion hacc

/-- The final sweep preserves "an order has been recorded iff some past
submission was accepted". -/
theorem final_sweep_accepted_iff (v : Venue) (position : Position) (s : ExecState)
    (hs : s.orders_placed ≠ [] ↔
            ∃ i, i < s.submissions ∧ v.outcomes i = SubmitOutcome.accepted) :
    (final_sweep v position s).orders_placed ≠ [] ↔
      ∃ i, i < (final_sweep v position s).submissions ∧
        v.outcomes i = SubmitOutcome.accepted := by
  unfold final_sweep
  by_cases hg : s.remaining_size > 1/10
  · rw [if_pos hg]
    cases hout : v.outcomes s.submissions with
    | accepted =>
      simp only []
      constructor
      · intro _
        exact ⟨s.submissions, Nat.lt_succ_self _, hout⟩
      · intro _
        simp
    | rejected =>
      simp only []
      rw [hs]
      constructor
      · rintro ⟨i, hi, hacc⟩
        exact ⟨i, Nat.lt_succ_of_lt hi, hacc⟩
      · rintro ⟨i, hi, hacc⟩
        rcases Nat.lt_succ_iff_lt_or_eq.1 hi with hlt | rfl
        · exact ⟨i, hlt, hacc⟩
        · rw [hout] at hacc
          exact SubmitOutcome.noConfusion hacc
    | exn =>
      simp only []
      rw [hs]
      constructor
      · rintro ⟨i, hi, hacc⟩
        exact ⟨i, Nat.lt_succ_of_lt hi, hacc⟩
      · rintro ⟨i, hi, hacc⟩
        rcases Nat.lt_succ_iff_lt_or_eq.1 hi with hlt | rfl
        · exact ⟨i, hlt, hacc⟩
        · rw [hout] at hacc
          exact SubmitOutcome.noConfusion hacc
  · rw [if_neg hg]
    exact hs

/-- C7: for every completed liquidation attempt the result's `success`
flag is true exactly when at least one of the venue's submission answers
was an acceptance, and when it is false the result is the failure record
carrying the attempted size (the full position size). -/
theorem success_iff_accepted (v : Venue) (position : Position) (fuel : ℕ)
    (s : ExecState) (hs : exec_final_state v position fuel = Option.some s) :
    ((mk_result position s).success = true ↔
       ∃ i, i < s.submissions ∧ v.outcomes i = SubmitOutcome.accepted) ∧
    ((mk_result position s).success = false →
       mk_result position s = ExecResult.failure position.size) := by
  have hiff : s.orders_placed ≠ [] ↔
      ∃ i, i < s.submissions ∧ v.outcomes i = SubmitOutcome.accepted := by
    unfold exec_final_state at hs
    obtain ⟨s₀, hrun, hsweep⟩ := Option.map_eq_some'.1 hs
    have h₀ := run_loop_preserves v position
      (fun s' => s'.orders_placed ≠ [] ↔
        ∃ i, i < s'.submissions ∧ v.outcomes i = SubmitOutcome.accepted)
      (fun s' hs' => loop_step_accepted_iff v position s' hs') fuel _ _ hrun
      (by simp [init_state])
    rw [← hsweep]
    exact final_sweep_accepted_iff v position s₀ h₀
  unfold mk_result
  by_cases hne : s.orders_placed = []
  · rw [if_pos hne]
    constructor
    · rw [← hiff]
      constructor
      · intro hfalse
        exact Bool.noConfusion hfalse
      · intro hcontra
        exact absurd hne hcontra
    · intro _
      rfl
  · rw [if_neg hne]
    constructor
    · rw [← hiff]
      constructor
      · intro _
        exact hne
      · intro _
        rfl
    · intro hfalse
      exact Bool.noConfusion hfalse

/-- Witness for `success_iff_accepted`: a dust-sized position exits the
loop at once with no order placed, and the failure record carries the
attempted size. -/
theorem success_iff_accepted_witness :
    mk_result dust_position
        { sell_price := 19/50, remaining_size := 1/20, total_filled := 0
          orders_placed := [], submissions := 0 } =
      ExecResult.failure dust_position.size := by
  have hs : exec_final_state reject_venue dust_position 0 =
      Option.some
        { sell_price := 19/50, remaining_size := 1/20, total_filled := 0
          orders_placed := [], submissions := 0 } := by
    norm_num [exec_final_state, run_loop, init_state, discover_price,
      final_sweep, reject_venue, dust_position, sample_position]
  exact (success_iff_accepted reject_venue dust_position 0 _ hs).2
    (by norm_num [mk_result, ExecResult.success])

/-- C9: selling the 100-token position priced 0.40 against a venue whose
best bid is 0.38 and which accepts every order places exactly two chunk
orders of 50 at 0.38 and returns success with 2 orders placed, 100
ordered and 0 remaining, for any fuel of at least two loop iterations. -/
theorem scenario_a_two_chunks (v : Venue) (rest : List ℚ)
    (hbook : v.book = BookResult.ok (19/50 :: rest))
    (hacc : ∀ i, v.outcomes i = SubmitOutcome.accepted)
    (fuel : ℕ) (hfuel : 2 ≤ fuel) :
    execute_market_sell v sample_position fuel =
      Option.some (ExecResult.ok 2 100 0 [(50, 19/50), (50, 19/50)]) ∧
    (ExecResult.ok 2 100 0 ([(50, 19/50), (50, 19/50)] : List (ℚ × ℚ))).success
      = true := by
  obtain ⟨k, rfl⟩ : ∃ k, fuel = k + 2 := ⟨fuel - 2, by omega⟩
  have hd : discover_price v sample_position = 19/50 := by
    unfold discover_price
    rw [hbook]
    norm_num
  have h0 : init_state v sample_position =
      { sell_price := 19/50, remaining_size := 100, total_filled := 0
        orders_placed := [], submissions := 0 } := by
    unfold init_state
    rw [hd]
    simp [sample_position]
  have hstep0 : loop_step v sample_position
      { sell_price := 19/50, remaining_size := 100, total_filled := 0
        orders_placed := [], submissions := 0 } =
      { sell_price := 19/50, remaining_size := 50, total_filled := 50
        orders_placed := [(50, 19/50)], submissions := 1 } := by
    norm_num [loop_step, chunk_size, hacc 0, sample_position]
  have hstep1 : loop_step v sample_position
      { sell_price := 19/50, remaining_size := 50, total_filled := 50
        orders_placed := [(50, 19/50)], submissions := 1 } =
      { sell_price := 19/50, remaining_size := 0, total_filled := 100
        orders_placed := [(50, 19/50), (50, 19/50)], submissions := 2 } := by
    norm_num [loop_step, chunk_size, hacc 1, sample_position]
  have hrun : run_loop v sample_position (k + 2)
      { sell_price := 19/50, remaining_size := 100, total_filled := 0
        orders_placed := [], submissions := 0 } =
      Option.some
        { sell_price := 19/50, remaining_size := 0, total_filled := 100
          orders_placed := [(50, 19/50), (50, 19/50)], submissions := 2 } := by
    rw [show k + 2 = k + 1 + 1 by omega]
    rw [run_loop_go v sample_position (k + 1) _ (by norm_num), hstep0]
    rw [run_loop_go v sample_position k _ (by norm_num), hstep1]
    exact run_loop_exit v sample_position k _ (by norm_num)
  have hfin : exec_final_state v sample_position (k + 2) =
      Option.some
        { sell_price := 19/50, remaining_size := 0, total_filled := 100
          orders_placed := [(50, 19/50), (50, 19/50)], submissions := 2 } := by
    unfold exec_final_state
    rw [h0, hrun]
    norm_num [final_sweep]
  constructor
  · unfold execute_market_sell
    rw [hfin]
    have hne : ([(50, (19 : ℚ)/50), (50, 19/50)] : List (ℚ × ℚ)) ≠ [] :=
      List.cons_ne_nil _ _
    norm_num [mk_result, hne, sample_position]
  · rfl

/-- Witness for `scenario_a_two_chunks` at the concrete scenario A venue
with fuel 2. -/
theorem scenario_a_two_chunks_witness :
    execute_market_sell accept_venue sample_position 2 =
      Option.some (ExecResult.ok 2 100 0 [(50, 19/50), (50, 19/50)]) :=
  (scenario_a_two_chunks accept_venue [] rfl (fun _ => rfl) 2 (by norm_num)).1
